import Mathlib

/-!
Verification development for the feeling-rusty-a-bit repository: a ping
latency visualizer and a DNS configuration tool. The definitions below are
shallow embeddings of the relevant Rust functions; latency values carried
as f64 in the source are modelled as rationals (all comparisons in the
source are against small integer constants, which f64 represents exactly),
and u64 latencies are modelled as naturals.
-/

namespace FeelingRusty

/-- Color classes produced by the rendering code. Neutral is the light-gray
color used for the failure sentinel in the dns-setter variant. -/
inductive PingClass where
  | neutral
  | good
  | warning
  | bad
  deriving DecidableEq, Repr

/-- Embeds the ping_color expression of MyApp.render_secondary_viewport in
src/dns-setter/src/app.rs: 0 is light gray, below 100 green, below 200
yellow, otherwise red. The same expression computes line_color for the
history chart from the current ping value. -/
def ping_color (v : ℚ) : PingClass :=
  if v = 0 then .neutral
  else if v < 100 then .good
  else if v < 200 then .warning
  else .bad

/-- Embeds the millisecond banding used by draw_current_ping and
draw_ping_history in src/5-ping-test-v2/src/main.rs: below 100 green,
below 150 yellow, otherwise red. -/
def v2_band (ms : ℕ) : PingClass :=
  if ms < 100 then .good
  else if ms < 150 then .warning
  else .bad

/-- Ranks the three latency bands for the monotonicity statement:
good before warning before bad. -/
def classRank : PingClass → ℕ
  | .neutral => 0
  | .good => 0
  | .warning => 1
  | .bad => 2

/-- One insertion into the rolling history, as performed by the
ping_receiver drain in MyApp.update (capacity 15) and by ping_thread in
src/5-ping-test-v2/src/main.rs (capacity 5): when the deque already holds
cap elements the front (oldest) element is popped, then the new value is
pushed at the back. -/
def pushBounded (cap : ℕ) (buf : List α) (x : α) : List α :=
  (if cap ≤ buf.length then buf.tail else buf) ++ [x]

/-- The history buffer obtained by starting from the empty deque and
performing one bounded insertion per received value, in order. -/
def histFold (cap : ℕ) (xs : List α) : List α :=
  xs.foldl (pushBounded cap) []

theorem histFold_snoc (cap : ℕ) (xs : List α) (x : α) :
    histFold cap (xs ++ [x]) = pushBounded cap (histFold cap xs) x := by
  simp [histFold, List.foldl_append]

theorem histFold_eq (cap : ℕ) (hcap : 1 ≤ cap) (xs : List α) :
    histFold cap xs = xs.drop (xs.length - cap) := by
  induction xs using List.reverseRecOn with
  | nil => simp [histFold]
  | append_singleton ys y ih =>
      rw [histFold_snoc, ih]
      unfold pushBounded
      by_cases h : cap ≤ ys.length
      · have hlen : (ys.drop (ys.length - cap)).length = cap := by
          rw [List.length_drop]; omega
        rw [if_pos (by omega : cap ≤ (ys.drop (ys.length - cap)).length)]
        rw [List.tail_drop]
        rw [List.length_append, List.length_singleton]
        rw [List.drop_append_of_le_length (by omega)]
        congr 2
        omega
      · have hlen : (ys.drop (ys.length - cap)).length = ys.length := by
          rw [List.length_drop]; omega
        rw [if_neg (by omega : ¬ cap ≤ (ys.drop (ys.length - cap)).length)]
        have h0 : ys.length - cap = 0 := by omega
        rw [h0, List.drop_zero, List.length_append, List.length_singleton]
        have h1 : ys.length + 1 - cap = 0 := by omega
        rw [h1, List.drop_zero]

theorem histFold_length_le (cap : ℕ) (hcap : 1 ≤ cap) (xs : List α) :
    (histFold cap xs).length ≤ cap := by
  rw [histFold_eq cap hcap, List.length_drop]
  omega

/-- Substring test over strings: some tail of the haystack starts with the
needle. Embeds the Rust str contains calls in update_dns_state and
draw_ping_history. -/
def strContains (hay needle : String) : Bool :=
  hay.data.tails.any (fun t => needle.data.isPrefixOf t)

/-- Numeric value of a list of decimal digit characters, most significant
first, exactly as the Rust integer parsers accumulate it. -/
def digitsVal (digits : List Char) : ℕ :=
  digits.foldl (fun acc c => acc * 10 + (c.toNat - 48)) 0

/-- Removes one leading plus sign, as the Rust unsigned integer parsers
do before reading digits. -/
def stripPlus (cs : List Char) : List Char :=
  match cs with
  | [] => []
  | c :: rest => if c = '+' then rest else c :: rest

/-- Embeds the Rust u8 FromStr parser invoked by MyApp.is_valid_ip: an
optional leading plus sign, then at least one decimal digit; the
accumulation overflow check rejects exactly the values above 255, and
leading zeros are allowed with no limit on digit count. -/
def parse_u8 (cs : List Char) : Option ℕ :=
  let digits := stripPlus cs
  if digits.isEmpty then none
  else if digits.all Char.isDigit then
    if digitsVal digits ≤ 255 then some (digitsVal digits) else none
  else none

/-- Embeds the Rust u64 FromStr parser used (through unwrap_or 9999) by
the ping-test-v2 renderers; same grammar as parse_u8 with the u64
overflow bound. -/
def parse_u64 (cs : List Char) : Option ℕ :=
  let digits := stripPlus cs
  if digits.isEmpty then none
  else if digits.all Char.isDigit then
    if digitsVal digits < 2 ^ 64 then some (digitsVal digits) else none
  else none

/-- Embeds Rust str split on a single separator character: the result is
never empty and empty parts are kept. -/
def splitOnChar (sep : Char) : List Char → List (List Char)
  | [] => [[]]
  | c :: rest =>
    match splitOnChar sep rest with
    | [] => [[]]
    | p :: ps => if c = sep then [] :: p :: ps else (c :: p) :: ps

/-- Embeds MyApp.is_valid_ip in src/dns-setter/src/app.rs: split on dots,
require exactly four parts, each of which parses as a u8. -/
def is_valid_ip (ip : String) : Bool :=
  let parts := splitOnChar '.' ip.data
  parts.length == 4 && parts.all (fun p => (parse_u8 p).isSome)

/-- Embeds the acceptance test of MyApp.render_ip_input: the empty field
is treated as valid, otherwise is_valid_ip decides. -/
def ipFieldOk (ip : String) : Bool :=
  ip.isEmpty || is_valid_ip ip

/-- The validity predicate exactly as the claim words it: four
dot-separated parts of one to three digits, each with numeric value at
most 255. Stated only to compare the claim against the code. -/
def claimedValidIp (ip : String) : Bool :=
  let parts := splitOnChar '.' ip.data
  parts.length == 4 && parts.all fun p =>
    decide (1 ≤ p.length) && decide (p.length ≤ 3) &&
      p.all Char.isDigit && decide (digitsVal p ≤ 255)

/-- Each token the u8 parser accepts: an optional leading plus sign, then
one or more decimal digits whose value is at most 255. -/
def u8TokenSpec (p : List Char) : Prop :=
  ∃ digits : List Char, (p = digits ∨ p = '+' :: digits) ∧ digits ≠ [] ∧
    (∀ c ∈ digits, c.isDigit = true) ∧ digitsVal digits ≤ 255

/-- An RGB color, as produced by the SDL renderers in the ping variants. -/
structure Rgb where
  r : ℕ
  g : ℕ
  b : ℕ
  deriving DecidableEq, Repr

/-- The inline color chain shared by draw_current_ping and the numeric
branch of draw_ping_history in src/5-ping-test-v2/src/main.rs: below 100
green, below 150 yellow, otherwise red. -/
def bandColor150 (ms : ℕ) : Rgb :=
  if ms < 100 then ⟨0, 255, 0⟩
  else if ms < 150 then ⟨255, 255, 0⟩
  else ⟨255, 0, 0⟩

/-- The history entry string pushed by ping_thread in
src/5-ping-test-v2/src/main.rs for one probe result. -/
def v2HistEntry : Option ℕ → String
  | some ms => toString ms ++ " ms"
  | none => "Ping failed"

/-- Embeds split_whitespace over the entry strings of ping-test-v2 (whose
only whitespace is the space character): split on spaces, drop empty
tokens. -/
def splitWs (cs : List Char) : List (List Char) :=
  (splitOnChar ' ' cs).filter (fun t => !t.isEmpty)

/-- Embeds the per-entry color selection of draw_ping_history in
src/5-ping-test-v2/src/main.rs: entries containing the word failed are
red, otherwise the first whitespace token (9999 when missing or
unparsable) is banded with the 100/150 thresholds. -/
def v2HistColor (text : String) : Rgb :=
  if strContains text "failed" then ⟨255, 0, 0⟩
  else
    let tok := (splitWs text.data).headD ['9', '9', '9', '9']
    bandColor150 ((parse_u64 tok).getD 9999)

/-- Fuel-bounded repeated removal of a leading pattern; the fuel is the
length of the subject, which suffices because each removal is nonempty. -/
def stripMatchesAux : ℕ → List Char → List Char → List Char
  | 0, _, s => s
  | fuel + 1, pat, s =>
    if pat.isEmpty then s
    else if pat.isPrefixOf s then stripMatchesAux fuel pat (s.drop pat.length)
    else s

/-- Embeds Rust trim_start_matches: strip the pattern from the front as
long as it remains a prefix. -/
def stripStartMatches (pat s : List Char) : List Char :=
  stripMatchesAux s.length pat s

/-- Embeds Rust trim_end_matches via the reversed lists. -/
def stripEndMatches (pat s : List Char) : List Char :=
  (stripStartMatches pat.reverse s.reverse).reverse

/-- Embeds the color selection of draw_current_ping in
src/5-ping-test-v2/src/main.rs: the label and the ms suffix are trimmed
off the displayed text, the rest parsed as u64 (9999 on failure), then
banded with the 100/150 thresholds. -/
def v2CurrentColor (text : String) : Rgb :=
  let stripped :=
    stripEndMatches " ms".data (stripStartMatches "Current Ping: ".data text.data)
  bandColor150 ((parse_u64 stripped).getD 9999)

/-- Embeds the DnsProvider enum of src/dns-setter/src/domain.rs. -/
inductive DnsProvider where
  | Electro (primary secondary : String)
  | Radar (primary secondary : String)
  | Shekan (primary secondary : String)
  | Bogzar (primary secondary : String)
  | Quad9 (primary secondary : String)
  | Custom (primary secondary : String)
  deriving DecidableEq, Repr

/-- Embeds DnsProvider::electro. -/
def DnsProvider.electro : DnsProvider := .Electro "78.157.42.100" "78.157.42.101"

/-- Embeds DnsProvider::radar. -/
def DnsProvider.radar : DnsProvider := .Radar "10.202.10.10" "10.202.10.11"

/-- Embeds DnsProvider::shekan. -/
def DnsProvider.shekan : DnsProvider := .Shekan "178.22.122.100" "185.51.200.2"

/-- Embeds DnsProvider::bogzar. -/
def DnsProvider.bogzar : DnsProvider := .Bogzar "185.55.226.26" "185.55.225.25"

/-- Embeds DnsProvider::quad9. -/
def DnsProvider.quad9 : DnsProvider := .Quad9 "9.9.9.9" "149.112.112.112"

/-- Embeds DnsProvider::custom. -/
def DnsProvider.custom (primary secondary : String) : DnsProvider :=
  .Custom primary secondary

/-- Embeds DnsProvider::get_servers. -/
def DnsProvider.get_servers : DnsProvider → String × String
  | .Electro p s | .Radar p s | .Shekan p s
  | .Bogzar p s | .Quad9 p s | .Custom p s => (p, s)

/-- Embeds the DnsState enum of src/dns-setter/src/domain.rs. -/
inductive DnsState where
  | Static (servers : List String)
  | Dhcp
  | None
  deriving DecidableEq, Repr

/-- Embeds MyApp.update_dns_state in src/dns-setter/src/app.rs as a
function of the scraped DNS list (the indexing of the single element is
guarded by the length test). -/
def update_dns_state (dns : List String) : DnsState :=
  if dns.isEmpty then .None
  else if dns.length == 1 && strContains (dns.headD "") "dhcp" then .Dhcp
  else .Static dns

/-- Embeds the OperationResult enum of src/dns-setter/src/domain.rs. -/
inductive OperationResult where
  | Success (message : String)
  | Error (message : String)
  | Warning (message : String)
  deriving DecidableEq, Repr

/-- The observable outcome of one netsh invocation: whether the process
exited successfully, and its captured standard error text. -/
structure CmdOutput where
  success : Bool
  stderr : String
  deriving DecidableEq, Repr

/-- Embeds set_dns_with_result in src/dns-setter/src/system.rs as a
function of the outcomes of the two netsh invocations; the boolean in the
result records whether the second (add secondary) invocation was
reached. -/
def set_dns_with_result (interface primary secondary : String)
    (o1 o2 : CmdOutput) : OperationResult × Bool :=
  if !o1.success then
    (.Error ("Error setting primary DNS " ++ primary ++ ": " ++ o1.stderr), false)
  else if !o2.success then
    (.Error ("Error setting secondary DNS " ++ secondary ++ ": " ++ o2.stderr), true)
  else
    (.Success ("DNS servers " ++ primary ++ " and " ++ secondary ++
      " set successfully for \x27" ++ interface ++ "\x27"), true)

/-- The three possible outcomes of one probe in get_ping
(src/dns-setter/src/app.rs): the address literal fails to parse, the send
errors out (timeout or unreachable), or the send succeeds after the given
elapsed wall-clock milliseconds. -/
inductive ProbeOutcome where
  | parseError
  | sendError
  | success (elapsedMs : ℚ)
  deriving DecidableEq

/-- Embeds get_ping in src/dns-setter/src/app.rs as a function of the
probe outcome: the elapsed milliseconds on success, 0.0 on every error. -/
def get_ping : ProbeOutcome → ℚ
  | .parseError => 0
  | .sendError => 0
  | .success e => e

/-- State of the ping worker loop spawned in MyApp.update: how many send
attempts it has made and whether the loop has exited through break. -/
structure WorkerState where
  sends : ℕ
  exited : Bool
  deriving DecidableEq, Repr

/-- One iteration of the worker loop (probe, send attempt, sleep): once
the loop has exited nothing more happens; otherwise one send attempt is
made and the loop breaks exactly when the receiver is gone at that
attempt. -/
def workerStep (alive : ℕ → Bool) (s : WorkerState) : WorkerState :=
  if s.exited then s
  else { sends := s.sends + 1, exited := !alive s.sends }

/-- The worker state after k loop iterations. -/
def workerRun (alive : ℕ → Bool) : ℕ → WorkerState
  | 0 => ⟨0, false⟩
  | k + 1 => workerStep alive (workerRun alive k)

/-- Modelled from the spec: the classification table of section 4.2, with
the warning band upper bound as a parameter (150 or 200 depending on the
variant). -/
def tableClassify (threshold : ℚ) (v : ℚ) : PingClass :=
  if v = 0 then .neutral
  else if v < 100 then .good
  else if 100 ≤ v ∧ v < threshold then .warning
  else .bad

/-- Claim C1: the rolling history buffer never exceeds its fixed capacity
(15 in the dns-setter ping monitor, 5 in the ping-test-v2 variant), and
after capacity plus one insertions the oldest element has been evicted and
the buffer holds exactly the most recent capacity values in insertion
order. -/
theorem history_buffer_bounded (xs : List ℚ) (ss : List String) :
    (histFold 15 xs).length ≤ 15 ∧ (histFold 5 ss).length ≤ 5 ∧
    (xs.length = 16 → histFold 15 xs = xs.drop 1) ∧
    (ss.length = 6 → histFold 5 ss = ss.drop 1) := by
  refine ⟨histFold_length_le 15 (by omega) xs, histFold_length_le 5 (by omega) ss,
    ?_, ?_⟩
  · intro h
    rw [histFold_eq 15 (by omega), h]
  · intro h
    rw [histFold_eq 5 (by omega), h]

theorem history_buffer_bounded_witness :
    histFold 15 [(0:ℚ), 1, 2, 3, 4, 5, 6, 7, 8, 9, 10, 11, 12, 13, 14, 15] =
      [1, 2, 3, 4, 5, 6, 7, 8, 9, 10, 11, 12, 13, 14, 15] ∧
    histFold 5 ["a", "b", "c", "d", "e", "f"] = ["b", "c", "d", "e", "f"] := by
  constructor
  · have h := (history_buffer_bounded
      [(0:ℚ), 1, 2, 3, 4, 5, 6, 7, 8, 9, 10, 11, 12, 13, 14, 15] []).2.2.1 rfl
    simpa using h
  · have h := (history_buffer_bounded []
      ["a", "b", "c", "d", "e", "f"]).2.2.2 rfl
    simpa using h

/-- Claim C2: away from the sentinel, the dns-setter classifier follows
the threshold-200 table and the ping-test-v2 classifier the threshold-150
table, each value landing in exactly one of good, warning, bad, and the
band is monotone in the latency. -/
theorem classification_bands (v w : ℚ) (hv0 : 0 ≤ v) (hv : v ≠ 0)
    (hw0 : 0 ≤ w) (hw : w ≠ 0) (m n : ℕ) :
    (ping_color v = .good ∨ ping_color v = .warning ∨ ping_color v = .bad) ∧
    (v < 100 → ping_color v = .good) ∧
    (100 ≤ v → v < 200 → ping_color v = .warning) ∧
    (200 ≤ v → ping_color v = .bad) ∧
    (v ≤ w → classRank (ping_color v) ≤ classRank (ping_color w)) ∧
    (v2_band m = .good ∨ v2_band m = .warning ∨ v2_band m = .bad) ∧
    (m < 100 → v2_band m = .good) ∧
    (100 ≤ m → m < 150 → v2_band m = .warning) ∧
    (150 ≤ m → v2_band m = .bad) ∧
    (m ≤ n → classRank (v2_band m) ≤ classRank (v2_band n)) := by
  unfold ping_color v2_band
  refine ⟨?_, ?_, ?_, ?_, ?_, ?_, ?_, ?_, ?_, ?_⟩ <;>
    · split_ifs <;> simp_all [classRank] <;> first | omega | linarith

theorem classification_bands_witness :
    (ping_color 50 = .good ∨ ping_color 50 = .warning ∨ ping_color 50 = .bad) ∧
    ping_color 120 = .warning ∧
    classRank (ping_color 50) ≤ classRank (ping_color 220) ∧
    v2_band 120 = .warning := by
  have h := classification_bands 50 220 (by norm_num) (by norm_num)
    (by norm_num) (by norm_num) 120 130
  have h2 := classification_bands 120 220 (by norm_num) (by norm_num)
    (by norm_num) (by norm_num) 120 130
  exact ⟨h.1, h2.2.2.1 (by norm_num) (by norm_num), h.2.2.2.2.1 (by norm_num),
    h.2.2.2.2.2.2.2.1 (by norm_num) (by norm_num)⟩

/-- Claim C5: get_ping is a total function of the probe outcome, returning
the measured elapsed milliseconds when the send succeeds and the sentinel
0.0 on every error, so a failure is numerically indistinguishable from a
0 ms success. -/
theorem get_ping_total (o : ProbeOutcome) (e : ℚ) :
    (o = .success e → get_ping o = e) ∧
    (o = .parseError ∨ o = .sendError → get_ping o = 0) ∧
    get_ping .sendError = get_ping (.success 0) := by
  refine ⟨?_, ?_, rfl⟩
  · rintro rfl; rfl
  · rintro (rfl | rfl) <;> rfl

theorem get_ping_total_witness :
    get_ping (.success 5) = 5 ∧ get_ping .sendError = 0 := by
  exact ⟨(get_ping_total (.success 5) 5).1 rfl,
    (get_ping_total .sendError 0).2.1 (Or.inr rfl)⟩

/-- Claim C7: feeding the sequence 50, sentinel, 120, 220, 90 through the
bounded history at capacity 5 (and equally at the dns-setter capacity 15)
keeps all five values in insertion order, and the dns-setter classifier
(threshold 200) as well as the section 4.2 table at thresholds 150 and 200
classify the elements as good, neutral, warning, bad, good. -/
theorem end_to_end_scenario :
    histFold 5 [(50:ℚ), 0, 120, 220, 90] = [50, 0, 120, 220, 90] ∧
    histFold 15 [(50:ℚ), 0, 120, 220, 90] = [50, 0, 120, 220, 90] ∧
    [(50:ℚ), 0, 120, 220, 90].map ping_color =
      [.good, .neutral, .warning, .bad, .good] ∧
    [(50:ℚ), 0, 120, 220, 90].map (tableClassify 150) =
      [.good, .neutral, .warning, .bad, .good] ∧
    [(50:ℚ), 0, 120, 220, 90].map (tableClassify 200) =
      [.good, .neutral, .warning, .bad, .good] := by
  decide

/-- Claim C9: a custom provider round-trips its two addresses through
get_servers, and each named constructor returns its fixed literal
address pair. -/
theorem provider_servers_roundtrip (p s : String) :
    (DnsProvider.custom p s).get_servers = (p, s) ∧
    DnsProvider.electro.get_servers = ("78.157.42.100", "78.157.42.101") ∧
    DnsProvider.radar.get_servers = ("10.202.10.10", "10.202.10.11") ∧
    DnsProvider.shekan.get_servers = ("178.22.122.100", "185.51.200.2") ∧
    DnsProvider.bogzar.get_servers = ("185.55.226.26", "185.55.225.25") ∧
    DnsProvider.quad9.get_servers = ("9.9.9.9", "149.112.112.112") := by
  exact ⟨rfl, rfl, rfl, rfl, rfl, rfl⟩

/-- Claim C3 counterexample: in the ping-test-v2 variant the failure entry
of the rolling history is rendered in exactly the red of the bad band
(identically to a 200 ms entry), and so is the failure text of the
current-ping line, so the failure result is not mapped to a distinct
neutral class in every variant. -/
theorem sentinel_not_neutral_in_v2 :
    v2HistColor (v2HistEntry Option.none) = ⟨255, 0, 0⟩ ∧
    v2HistColor (v2HistEntry (Option.some 200)) = ⟨255, 0, 0⟩ ∧
    v2CurrentColor "Ping failed" = ⟨255, 0, 0⟩ ∧
    bandColor150 200 = ⟨255, 0, 0⟩ := by
  decide

/-- Claim C3 amended: the dns-setter variant maps a current value equal to
the sentinel 0 to the distinct light-gray neutral class, reserved for the
sentinel (the history chart line is colored by the same function of the
current value); the ping-test-v2 variant instead renders a failure in the
red of the bad band, both for the current line and for a failure entry of
the history. -/
theorem sentinel_neutral_amended :
    ping_color 0 = .neutral ∧
    (∀ v : ℚ, v ≠ 0 → ping_color v ≠ .neutral) ∧
    v2HistColor (v2HistEntry Option.none) = bandColor150 200 ∧
    v2CurrentColor "Ping failed" = bandColor150 200 := by
  refine ⟨rfl, ?_, by decide, by decide⟩
  intro v hv
  unfold ping_color
  split_ifs <;> simp_all

theorem sentinel_neutral_amended_witness :
    ping_color 0 = .neutral ∧ ping_color 50 ≠ .neutral := by
  exact ⟨sentinel_neutral_amended.1,
    sentinel_neutral_amended.2.1 50 (by norm_num)⟩

theorem workerRun_closed (alive : ℕ → Bool) (d : ℕ)
    (hd : ∀ n, alive n = true ↔ n < d) (k : ℕ) :
    workerRun alive k = if k ≤ d then ⟨k, false⟩ else ⟨d + 1, true⟩ := by
  induction k with
  | zero => simp [workerRun]
  | succ k ih =>
    rw [workerRun, ih]
    by_cases h : k ≤ d
    · rw [if_pos h]
      by_cases h2 : k < d
      · have ha : alive k = true := (hd k).2 h2
        rw [if_pos (by omega)]
        simp [workerStep, ha]
      · have hkd : k = d := by omega
        subst hkd
        have ha : alive k = false := by
          cases h3 : alive k
          · rfl
          · exact absurd ((hd k).1 h3) (by omega)
        rw [if_neg (by omega)]
        simp [workerStep, ha]
    · rw [if_neg h, if_neg (by omega)]
      simp [workerStep]

/-- Claim C4: when the receiver stays alive for exactly d send attempts
and is then dropped, the worker makes at most d + 1 send attempts in
total, and from loop iteration d + 1 onward it has exited with exactly
d + 1 attempts made — at most one extra send attempt after the drop, and
the loop ends one probe-plus-sleep cycle later. -/
theorem worker_stops_after_drop (alive : ℕ → Bool) (d : ℕ)
    (hd : ∀ n, alive n = true ↔ n < d) (k : ℕ) :
    (workerRun alive k).sends ≤ d + 1 ∧
    (d + 1 ≤ k →
      (workerRun alive k).exited = true ∧ (workerRun alive k).sends = d + 1) := by
  rw [workerRun_closed alive d hd k]
  by_cases h : k ≤ d
  · rw [if_pos h]
    exact ⟨by show k ≤ d + 1; omega, fun hk => absurd hk (by omega)⟩
  · rw [if_neg h]
    exact ⟨by show d + 1 ≤ d + 1; omega, fun _ => ⟨rfl, rfl⟩⟩

theorem worker_stops_after_drop_witness :
    (workerRun (fun n => decide (n < 2)) 5).sends ≤ 3 ∧
    (workerRun (fun n => decide (n < 2)) 5).exited = true ∧
    (workerRun (fun n => decide (n < 2)) 5).sends = 3 := by
  have h := worker_stops_after_drop (fun n => decide (n < 2)) 2
    (fun n => by simp) 5
  exact ⟨h.1, h.2 (by omega)⟩

/-- Claim C8: set_dns_with_result succeeds exactly when both netsh
invocations succeed; a failing primary command yields an Error with that
command's stderr inlined and the secondary command is never attempted; a
failing secondary likewise yields an Error with its stderr inlined. -/
theorem set_dns_result_spec (i p s : String) (o1 o2 : CmdOutput) :
    ((∃ m, (set_dns_with_result i p s o1 o2).1 = .Success m) ↔
      o1.success = true ∧ o2.success = true) ∧
    (o1.success = false →
      set_dns_with_result i p s o1 o2 =
        (.Error ("Error setting primary DNS " ++ p ++ ": " ++ o1.stderr),
          false)) ∧
    (o1.success = true → o2.success = false →
      set_dns_with_result i p s o1 o2 =
        (.Error ("Error setting secondary DNS " ++ s ++ ": " ++ o2.stderr),
          true)) := by
  rcases o1 with ⟨s1, e1⟩
  rcases o2 with ⟨s2, e2⟩
  cases s1 <;> cases s2 <;> simp [set_dns_with_result]

theorem set_dns_result_spec_witness :
    set_dns_with_result "Wi-Fi" "9.9.9.9" "149.112.112.112"
        ⟨false, "boom"⟩ ⟨true, ""⟩ =
      (.Error "Error setting primary DNS 9.9.9.9: boom", false) := by
  exact (set_dns_result_spec "Wi-Fi" "9.9.9.9" "149.112.112.112"
    ⟨false, "boom"⟩ ⟨true, ""⟩).2.1 rfl

/-- Claim C10: the displayed DNS state is determined by the scraped list
alone: None exactly on the empty list, Dhcp exactly on a single entry
containing the substring dhcp, and otherwise Static holding the whole
list unchanged. -/
theorem dns_state_trichotomy (dns : List String) (l : List String) :
    (update_dns_state dns = .None ↔ dns = []) ∧
    (update_dns_state dns = .Dhcp ↔
      ∃ e, dns = [e] ∧ strContains e "dhcp" = true) ∧
    (update_dns_state dns = .Static l ↔
      l = dns ∧ dns ≠ [] ∧
        ¬ ∃ e, dns = [e] ∧ strContains e "dhcp" = true) := by
  rcases dns with _ | ⟨a, rest⟩
  · simp [update_dns_state]
  · rcases rest with _ | ⟨b, rest⟩
    · by_cases hc : strContains a "dhcp" = true
      · simp [update_dns_state, hc]
      · simp [update_dns_state, hc]
        exact eq_comm
    · simp [update_dns_state]
      exact eq_comm

theorem stripPlus_cases (p : List Char) :
    p = stripPlus p ∨ p = '+' :: stripPlus p := by
  rcases p with _ | ⟨c, rest⟩
  · exact Or.inl rfl
  · by_cases hc : c = '+'
    · subst hc
      right
      simp [stripPlus]
    · left
      simp [stripPlus, hc]

theorem parse_u8_isSome (cs : List Char) :
    (parse_u8 cs).isSome = true ↔
      stripPlus cs ≠ [] ∧ (∀ c ∈ stripPlus cs, c.isDigit = true) ∧
        digitsVal (stripPlus cs) ≤ 255 := by
  unfold parse_u8
  dsimp only
  split_ifs with h1 h2 h3 <;>
    simp_all [List.isEmpty_iff, List.all_eq_true]

theorem parse_u8_isSome_iff (p : List Char) :
    (parse_u8 p).isSome = true ↔ u8TokenSpec p := by
  rw [parse_u8_isSome]
  constructor
  · rintro ⟨h1, h2, h3⟩
    rcases stripPlus_cases p with hp | hp
    · exact ⟨stripPlus p, Or.inl hp, h1, h2, h3⟩
    · exact ⟨stripPlus p, Or.inr hp, h1, h2, h3⟩
  · rintro ⟨digits, hp | hp, hne, hdig, hval⟩
    · have hsp : stripPlus p = digits := by
        rw [hp]
        rcases digits with _ | ⟨c, rest⟩
        · rfl
        · have hc : c.isDigit = true := hdig c (by simp)
          have hcp : c ≠ '+' := by
            intro h
            rw [h] at hc
            exact absurd hc (by decide)
          simp [stripPlus, hcp]
      rw [hsp]
      exact ⟨hne, hdig, hval⟩
    · have hsp : stripPlus p = digits := by
        rw [hp]
        simp [stripPlus]
      rw [hsp]
      exact ⟨hne, hdig, hval⟩

/-- Claim C6 counterexample: the fourth part of 1.2.3.0001 has four
digits, so the claimed one-to-three-digit grammar rejects the string, but
is_valid_ip accepts it; the Rust u8 parser allows leading zeros (and a
leading plus sign) with no limit on digit count. -/
theorem ip_validation_claim_cex :
    is_valid_ip "1.2.3.0001" = true ∧ claimedValidIp "1.2.3.0001" = false ∧
    is_valid_ip "1.2.3.+4" = true := by
  decide

/-- Claim C6 amended: is_valid_ip accepts exactly the strings splitting on
dots into four parts, each an optional plus sign followed by one or more
decimal digits with value at most 255 (leading zeros allowed, digit count
unlimited); the sample tokens 256, 1.2.3 and abc are still rejected, and
the empty string is treated as a valid placeholder by the input field. -/
theorem ip_validation_amended (ip : String) :
    (is_valid_ip ip = true ↔
      (splitOnChar '.' ip.data).length = 4 ∧
        ∀ p ∈ splitOnChar '.' ip.data, u8TokenSpec p) ∧
    is_valid_ip "256.1.1.1" = false ∧
    is_valid_ip "1.2.3" = false ∧
    is_valid_ip "abc.1.1.1" = false ∧
    ipFieldOk "" = true := by
  refine ⟨?_, by decide, by decide, by decide, by decide⟩
  unfold is_valid_ip
  simp [List.all_eq_true, parse_u8_isSome_iff]

end FeelingRusty
